import Mathlib

/-!
Shallow embedding of `src/local_sop_identifier.py` (class `LocalSOPIdentifier`).

Strings are handled as `List Char` (the `data` of a `String`), real-number
scores as `ℚ`.  The two external collaborators (the sentence-transformer /
FAISS semantic search and the BM25 lexical scorer) enter the model as the raw
score vectors they hand to `retrieve_relevant_sops`; everything downstream of
those vectors (dense fill-in, max-normalisation, weighted fusion, `argsort`
ranking, rounding, tiering and the accept/review/reject decision) is embedded
from the Python source.
-/

namespace SOPFinder

/-- Python `str.strip()` whitespace test (space, tab, newline, carriage
return, vertical tab, form feed). -/
def isPySpace (c : Char) : Bool :=
  c = ' ' || c = '\t' || c = '\n' || c = '\r' || c.toNat = 11 || c.toNat = 12

/-- Python `str.strip()` on a character list: drop whitespace at both ends. -/
def pyStrip (l : List Char) : List Char :=
  ((l.dropWhile isPySpace).reverse.dropWhile isPySpace).reverse

/-- Python `content.split('---')` (line 70): split at every occurrence of the
three-character substring `---`, scanning left to right, non-overlapping.
The accumulator holds the current piece in reverse. -/
def splitDashes : List Char → List Char → List (List Char)
  | [], acc => [acc.reverse]
  | '-' :: '-' :: '-' :: rest, acc => acc.reverse :: splitDashes rest []
  | c :: rest, acc => splitDashes rest (c :: acc)

/-- Python `section.split('\n')` (line 78). -/
def splitNewline : List Char → List Char → List (List Char)
  | [], acc => [acc.reverse]
  | '\n' :: rest, acc => acc.reverse :: splitNewline rest []
  | c :: rest, acc => splitNewline rest (c :: acc)

/-- Python `sop_part.replace('SOP-', '')` (line 84): remove every occurrence
of the substring `SOP-`, scanning left to right, non-overlapping. -/
def removeSOPtag : List Char → List Char
  | 'S' :: 'O' :: 'P' :: '-' :: rest => removeSOPtag rest
  | c :: rest => c :: removeSOPtag rest
  | [] => []

/-- Digit run accepted by Python `int()`: decimal digits, a single underscore
allowed between two digits. -/
def pyIntDigits : Nat → List Char → Option Nat
  | acc, [] => some acc
  | acc, c :: cs =>
    if c.isDigit then pyIntDigits (10 * acc + (c.toNat - 48)) cs
    else if c = '_' then
      match cs with
      | d :: _ => if d.isDigit then pyIntDigits acc cs else none
      | [] => none
    else none

/-- Python `int(s)` as a partial function: strip whitespace, optional sign,
then a digit run; `none` models the `ValueError` raised on anything else. -/
def pyInt (s : List Char) : Option Int :=
  match pyStrip s with
  | '-' :: c :: rest =>
    if c.isDigit then (pyIntDigits 0 (c :: rest)).map (fun n => -(n : Int)) else none
  | '+' :: c :: rest =>
    if c.isDigit then (pyIntDigits 0 (c :: rest)).map (fun n => (n : Int)) else none
  | c :: rest =>
    if c.isDigit then (pyIntDigits 0 (c :: rest)).map (fun n => (n : Int)) else none
  | [] => none

/-- One parsed SOP record, mirroring the dict built at lines 87-92. -/
structure SopChunk where
  id : String
  title : String
  content : String
  sop_number : Int
deriving DecidableEq, Inhabited

/-- Body of the `for section in sop_sections` loop of `parse_sops`
(lines 74-92).  `Except.error` models the uncaught `ValueError` raised by
`int(...)` on a non-integer number part; `.ok none` is the silent skip
taken when the guard at line 76 or the `':' in first_line` test fails. -/
def parseSection (sec : List Char) : Except String (Option SopChunk) :=
  let s := pyStrip sec
  if s ≠ [] ∧ s.take 4 = ['S', 'O', 'P', '-'] then
    let lines := splitNewline s []
    let first_line := pyStrip (lines.headD [])
    if first_line.contains ':' then
      let sop_part := first_line.takeWhile (fun c => c ≠ ':')
      let title := pyStrip ((first_line.dropWhile (fun c => c ≠ ':')).drop 1)
      match pyInt (removeSOPtag sop_part) with
      | none => .error "ValueError: invalid literal for int()"
      | some n =>
        .ok (some
          { id := "sop_" ++ toString n
          , title := "SOP-" ++ toString n ++ ": " ++ String.mk title
          , content := String.mk s
          , sop_number := n })
    else .ok none
  else .ok none

/-- Folding `parseSection` over the sections: the first `ValueError` aborts
the whole parse, skipped sections contribute nothing. -/
def parseSections : List (List Char) → Except String (List SopChunk)
  | [] => .ok []
  | sec :: rest =>
    match parseSection sec with
    | .error e => .error e
    | .ok none => parseSections rest
    | .ok (some c) => (parseSections rest).map (fun cs => c :: cs)

/-- `parse_sops` (lines 56-95), with the file contents passed directly as a
string: split on `---`, keep the well-formed sections. -/
def parse_sops (text : String) : Except String (List SopChunk) :=
  parseSections (splitDashes text.data [])

end SOPFinder


namespace SOPFinder

/-- `numpy.ndarray.max()` on a non-empty vector (the catalog is non-empty
whenever `retrieve_relevant_sops` runs); `0` on the empty vector. -/
def npMax : List ℚ → ℚ
  | [] => 0
  | x :: xs => xs.foldl max x

/-- Score normalisation of lines 254-263: divide by the vector's own maximum
when that maximum is positive, otherwise leave the vector untouched. -/
def normalizeByMax (v : List ℚ) : List ℚ :=
  if npMax v > 0 then v.map (fun x => x / npMax v) else v

/-- The `hybrid_scores` vector of lines 266-269:
`semantic_weight * semantic_scores_norm + bm25_weight * bm25_scores_norm`. -/
def hybridScores (semantic_scores bm25_scores : List ℚ)
    (semantic_weight bm25_weight : ℚ) : List ℚ :=
  List.zipWith (fun s b => semantic_weight * s + bm25_weight * b)
    (normalizeByMax semantic_scores) (normalizeByMax bm25_scores)

/-- The dense `semantic_scores` array of lines 245-248: start from zeros and
write each FAISS hit `(idx, distance)` at its row. -/
def denseSemanticScores (n : ℕ) (hits : List (ℕ × ℚ)) : List ℚ :=
  hits.foldl (fun arr hit => arr.set hit.1 hit.2) (List.replicate n 0)

/-- Ascending comparison used to model `np.argsort`: by score, with equal
scores kept in index order.  `np.argsort` with the default sort is stable on
the short arrays this system sorts (numpy falls back to insertion sort
below 16 elements), and a stable ascending argsort of the indices
`0..n-1` returns them sorted by the pair (score, index). -/
def argRel (key : ℕ → ℚ) (i j : ℕ) : Prop :=
  key i < key j ∨ (key i = key j ∧ i ≤ j)

instance argRel.instDecidable (key : ℕ → ℚ) (i j : ℕ) :
    Decidable (argRel key i j) :=
  inferInstanceAs (Decidable (_ ∨ _))

instance argRel.instIsTotal (key : ℕ → ℚ) : IsTotal ℕ (argRel key) where
  total i j := by
    rcases lt_trichotomy (key i) (key j) with h | h | h
    · exact Or.inl (Or.inl h)
    · rcases Nat.le_total i j with hij | hij
      · exact Or.inl (Or.inr ⟨h, hij⟩)
      · exact Or.inr (Or.inr ⟨h.symm, hij⟩)
    · exact Or.inr (Or.inl h)

instance argRel.instIsTrans (key : ℕ → ℚ) : IsTrans ℕ (argRel key) where
  trans i j k hij hjk := by
    rcases hij with h1 | ⟨h1, h1'⟩ <;> rcases hjk with h2 | ⟨h2, h2'⟩
    · exact Or.inl (h1.trans h2)
    · exact Or.inl (h2 ▸ h1)
    · exact Or.inl (h1 ▸ h2)
    · exact Or.inr ⟨h1.trans h2, h1'.trans h2'⟩

/-- `np.argsort(scores)` (line 272), modelled as the stable ascending
argsort: indices `0..n-1` sorted by score, ties in index order. -/
def pyArgsort (scores : List ℚ) : List ℕ :=
  List.insertionSort (argRel (fun i => scores.getD i 0)) (List.range scores.length)

/-- Round-half-to-even on a rational, mirroring how Python `round` breaks
ties. -/
def roundHalfEven (q : ℚ) : ℤ :=
  if q - ⌊q⌋ < 1 / 2 then ⌊q⌋
  else if 1 / 2 < q - ⌊q⌋ then ⌊q⌋ + 1
  else if ⌊q⌋ % 2 = 0 then ⌊q⌋ else ⌊q⌋ + 1

/-- Python `round(x, 4)` (lines 291-294) over the rational model. -/
def round4 (q : ℚ) : ℚ := (roundHalfEven (q * 10000) : ℚ) / 10000

/-- The `confidence_level` ladder of lines 280-285, applied to each
candidate's own (unrounded) hybrid score. -/
def confidenceLevelOf (confidence : ℚ) : String :=
  if confidence ≥ 7 / 10 then "HIGH"
  else if confidence ≥ 4 / 10 then "MEDIUM"
  else "LOW"

/-- One entry of the list returned by `retrieve_relevant_sops`
(lines 287-296).  `row` records the catalog row `idx` the entry was built
from (the `idx` of the loop at line 276). -/
structure Candidate where
  id : String
  title : String
  sop_number : Int
  confidence_score : ℚ
  confidence_level : String
  semantic_score : ℚ
  bm25_score : ℚ
  content_preview : String
  row : ℕ
deriving DecidableEq, Inhabited

/-- The result dict built for one `idx` in the loop at lines 276-296. -/
def mkCandidate (chunks : List SopChunk)
    (semantic_scores_norm bm25_scores_norm hybrid_scores : List ℚ)
    (idx : ℕ) : Candidate :=
  let confidence := hybrid_scores.getD idx 0
  let chunk := chunks.getD idx default
  { id := chunk.id
  , title := chunk.title
  , sop_number := chunk.sop_number
  , confidence_score := round4 confidence
  , confidence_level := confidenceLevelOf confidence
  , semantic_score := round4 (semantic_scores_norm.getD idx 0)
  , bm25_score := round4 (bm25_scores_norm.getD idx 0)
  , content_preview := String.mk (chunk.content.data.take 200) ++ "..."
  , row := idx }

/-- `retrieve_relevant_sops` (lines 209-299) downstream of the two external
scorers: the raw semantic vector (dense, FAISS hits written over zeros) and
the raw BM25 vector come in as arguments; normalisation, fusion, ranking
(`np.argsort(hybrid_scores)[::-1][:top_k]`, line 272) and result assembly
are embedded. -/
def retrieve_relevant_sops (chunks : List SopChunk)
    (semantic_scores bm25_scores : List ℚ)
    (top_k : ℕ) (semantic_weight bm25_weight : ℚ) : List Candidate :=
  let semantic_scores_norm := normalizeByMax semantic_scores
  let bm25_scores_norm := normalizeByMax bm25_scores
  let hybrid_scores := hybridScores semantic_scores bm25_scores semantic_weight bm25_weight
  let top_indices := (pyArgsort hybrid_scores).reverse.take top_k
  top_indices.map (mkCandidate chunks semantic_scores_norm bm25_scores_norm hybrid_scores)

/-- The recommendation ladder of lines 338-347, compared against the rounded
`confidence_score` of the best candidate. -/
def recommendationOf (s threshold : ℚ) : String :=
  if s ≥ 7 / 10 then "ACCEPT"
  else if s ≥ threshold then "REVIEW"
  else "REJECT"

/-- The `reason` template keyed by the recommendation (lines 339-347). -/
def reasonFor (recommendation : String) (title : String) : String :=
  if recommendation = "ACCEPT" then
    "High confidence match. The incident strongly aligns with " ++ title ++ "."
  else if recommendation = "REVIEW" then
    "Moderate confidence match. Review " ++ title ++ " to confirm applicability."
  else
    "Low confidence. The top match (" ++ title ++ ") may not be appropriate. Consider manual review."

/-- The dict returned by `select_best_sop` (lines 324-361); optional fields
are absent (`none`) in the no-match branch. -/
structure Decision where
  selected_sop_id : Option String
  selected_sop_number : Option Int
  selected_sop_title : Option String
  confidence_score : ℚ
  confidence_level : String
  semantic_score : Option ℚ
  bm25_score : Option ℚ
  recommendation : String
  reason : String
  retrieved_sops : List Candidate
  alternative_sops : List Candidate
deriving DecidableEq

/-- The decision logic of `select_best_sop` (lines 324-361) applied to the
already-retrieved candidate list `relevant_sops`. -/
def selectFromCandidates (relevant_sops : List Candidate)
    (confidence_threshold : ℚ) : Decision :=
  match relevant_sops with
  | [] =>
    { selected_sop_id := none
    , selected_sop_number := none
    , selected_sop_title := none
    , confidence_score := 0
    , confidence_level := "NONE"
    , semantic_score := none
    , bm25_score := none
    , recommendation := "NO_MATCH"
    , reason := "No relevant SOPs found"
    , retrieved_sops := []
    , alternative_sops := [] }
  | best :: rest =>
    let recommendation := recommendationOf best.confidence_score confidence_threshold
    { selected_sop_id := some best.id
    , selected_sop_number := some best.sop_number
    , selected_sop_title := some best.title
    , confidence_score := best.confidence_score
    , confidence_level := best.confidence_level
    , semantic_score := some best.semantic_score
    , bm25_score := some best.bm25_score
    , recommendation := recommendation
    , reason := reasonFor recommendation best.title
    , retrieved_sops := best :: rest
    , alternative_sops := rest }

/-- `select_best_sop` (lines 301-361): retrieve with `top_k = 3` and the
default weights `0.6` / `0.4`, then decide. -/
def select_best_sop (chunks : List SopChunk)
    (semantic_scores bm25_scores : List ℚ)
    (confidence_threshold : ℚ) : Decision :=
  selectFromCandidates
    (retrieve_relevant_sops chunks semantic_scores bm25_scores 3 (6 / 10) (4 / 10))
    confidence_threshold

/-- Two-record catalog used for the concrete evaluations below. -/
def chunkA : SopChunk :=
  { id := "sop_1", title := "SOP-1: Database Outage"
  , content := "SOP-1: Database Outage", sop_number := 1 }

/-- Second record of the concrete two-record catalog. -/
def chunkB : SopChunk :=
  { id := "sop_2", title := "SOP-2: API Slowness"
  , content := "SOP-2: API Slowness", sop_number := 2 }

/-- The concrete two-record catalog. -/
def twoChunks : List SopChunk := [chunkA, chunkB]

end SOPFinder


namespace SOPFinder

theorem foldl_max_init_mono {a b : ℚ} (xs : List ℚ) (h : a ≤ b) :
    xs.foldl max a ≤ xs.foldl max b := by
  induction xs generalizing a b with
  | nil => exact h
  | cons x xs ih =>
    simp only [List.foldl_cons]
    exact ih (max_le_max h le_rfl)

theorem init_le_foldl_max (xs : List ℚ) (a : ℚ) : a ≤ xs.foldl max a := by
  induction xs generalizing a with
  | nil => exact le_rfl
  | cons x xs ih =>
    simp only [List.foldl_cons]
    exact le_trans (le_max_left a x) (ih (max a x))

theorem mem_le_foldl_max (xs : List ℚ) (a : ℚ) : ∀ x ∈ xs, x ≤ xs.foldl max a := by
  induction xs generalizing a with
  | nil => intro x hx; cases hx
  | cons y ys ih =>
    intro x hx
    simp only [List.foldl_cons]
    rcases List.mem_cons.mp hx with rfl | hx
    · exact le_trans (le_max_right a x) (init_le_foldl_max ys (max a x))
    · exact ih (max a y) x hx

/-- Every entry of a vector is bounded by its `npMax`. -/
theorem le_npMax {v : List ℚ} : ∀ x ∈ v, x ≤ npMax v := by
  cases v with
  | nil => intro x hx; cases hx
  | cons y ys =>
    intro x hx
    rcases List.mem_cons.mp hx with rfl | hx
    · exact init_le_foldl_max ys x
    · exact mem_le_foldl_max ys y x hx

theorem foldl_max_map_div (xs : List ℚ) (a c : ℚ) (hc : 0 ≤ c) :
    (xs.map (fun x => x / c)).foldl max (a / c) = xs.foldl max a / c := by
  induction xs generalizing a with
  | nil => rfl
  | cons x xs ih =>
    simp only [List.map_cons, List.foldl_cons]
    rw [max_div_div_right hc a x]
    exact ih (max a x)

theorem normalizeByMax_pos {v : List ℚ} (h : 0 < npMax v) :
    normalizeByMax v = v.map (fun x => x / npMax v) := by
  unfold normalizeByMax
  exact if_pos h

theorem normalizeByMax_nonpos {v : List ℚ} (h : ¬ 0 < npMax v) :
    normalizeByMax v = v := by
  unfold normalizeByMax
  exact if_neg h

/-- After a positive-maximum normalisation the maximum is exactly `1`. -/
theorem npMax_normalizeByMax {v : List ℚ} (hne : v ≠ []) (hpos : 0 < npMax v) :
    npMax (normalizeByMax v) = 1 := by
  rw [normalizeByMax_pos hpos]
  cases v with
  | nil => exact absurd rfl hne
  | cons x xs =>
    show (xs.map fun y => y / npMax (x :: xs)).foldl max (x / npMax (x :: xs)) = 1
    rw [foldl_max_map_div xs x (npMax (x :: xs)) (le_of_lt hpos)]
    exact div_self (ne_of_gt hpos)

/-- Entries of the normalised vector stay in `[0, 1]` when the raw vector is
non-negative. -/
theorem normalizeByMax_mem_unit {v : List ℚ} (h0 : ∀ x ∈ v, 0 ≤ x) :
    ∀ y ∈ normalizeByMax v, 0 ≤ y ∧ y ≤ 1 := by
  by_cases hpos : 0 < npMax v
  · rw [normalizeByMax_pos hpos]
    intro y hy
    rcases List.mem_map.mp hy with ⟨x, hx, rfl⟩
    exact ⟨div_nonneg (h0 x hx) (le_of_lt hpos),
      (div_le_one hpos).mpr (le_npMax x hx)⟩
  · rw [normalizeByMax_nonpos hpos]
    intro y hy
    have h1 := h0 y hy
    have h2 : y ≤ npMax v := le_npMax y hy
    have h3 := le_of_not_lt hpos
    exact ⟨h1, by linarith⟩

theorem length_normalizeByMax (v : List ℚ) : (normalizeByMax v).length = v.length := by
  unfold normalizeByMax
  split
  · rw [List.length_map]
  · rfl

theorem roundHalfEven_nonneg {q : ℚ} (h : 0 ≤ q) : 0 ≤ roundHalfEven q := by
  unfold roundHalfEven
  have hf : (0 : ℤ) ≤ ⌊q⌋ := Int.floor_nonneg.mpr h
  split_ifs <;> omega

theorem roundHalfEven_le_of_le {q : ℚ} {N : ℤ} (h : q ≤ (N : ℚ)) :
    roundHalfEven q ≤ N := by
  unfold roundHalfEven
  have hf : ⌊q⌋ ≤ N := by
    have h1 := Int.floor_le_floor h
    rwa [Int.floor_intCast] at h1
  have hfl : (⌊q⌋ : ℚ) ≤ q := Int.floor_le q
  split_ifs with h1 h2 h3
  · exact hf
  · have hlt : (⌊q⌋ : ℚ) < (N : ℚ) := by linarith
    have : ⌊q⌋ < N := by exact_mod_cast hlt
    omega
  · exact hf
  · have heq : q - ⌊q⌋ = 1 / 2 := le_antisymm (le_of_not_lt h2) (le_of_not_lt h1)
    have hlt : (⌊q⌋ : ℚ) < (N : ℚ) := by linarith
    have : ⌊q⌋ < N := by exact_mod_cast hlt
    omega

theorem round4_nonneg {q : ℚ} (h : 0 ≤ q) : 0 ≤ round4 q := by
  unfold round4
  have h1 : (0 : ℤ) ≤ roundHalfEven (q * 10000) :=
    roundHalfEven_nonneg (by linarith)
  have h2 : (0 : ℚ) ≤ (roundHalfEven (q * 10000) : ℚ) := by exact_mod_cast h1
  exact div_nonneg h2 (by norm_num)

theorem round4_le_one {q : ℚ} (h : q ≤ 1) : round4 q ≤ 1 := by
  unfold round4
  have h1 : roundHalfEven (q * 10000) ≤ (10000 : ℤ) :=
    roundHalfEven_le_of_le (by push_cast; linarith)
  rw [div_le_one (by norm_num)]
  exact_mod_cast h1

theorem pyArgsort_length (scores : List ℚ) :
    (pyArgsort scores).length = scores.length :=
  (List.perm_insertionSort _ _).length_eq.trans (List.length_range _)

theorem mem_pyArgsort {scores : List ℚ} {i : ℕ} :
    i ∈ pyArgsort scores ↔ i < scores.length := by
  unfold pyArgsort
  rw [List.mem_insertionSort, List.mem_range]

theorem pyArgsort_nodup (scores : List ℚ) : (pyArgsort scores).Nodup :=
  ((List.perm_insertionSort _ _).nodup_iff).mpr (List.nodup_range _)

theorem pyArgsort_sorted (scores : List ℚ) :
    List.Pairwise (argRel (fun i => scores.getD i 0)) (pyArgsort scores) :=
  List.sorted_insertionSort _ _

/-- Reversing the stable ascending argsort yields indices whose scores
strictly decrease pairwise in the lexicographic (score, index) sense:
equal scores come out in descending index order. -/
theorem pyArgsort_reverse_pairwise (scores : List ℚ) :
    List.Pairwise (fun i j => scores.getD j 0 < scores.getD i 0 ∨
      (scores.getD i 0 = scores.getD j 0 ∧ j < i)) (pyArgsort scores).reverse := by
  rw [List.pairwise_reverse]
  have hs := pyArgsort_sorted scores
  have hn : List.Pairwise (fun i j : ℕ => i ≠ j) (pyArgsort scores) :=
    pyArgsort_nodup scores
  refine (hs.and hn).imp ?_
  rintro a b ⟨hab, hne⟩
  rcases hab with h | ⟨h, hle⟩
  · exact Or.inl h
  · exact Or.inr ⟨h.symm, lt_of_le_of_ne hle hne⟩

theorem length_hybridScores (sem bm : List ℚ) (sw bw : ℚ)
    (h : sem.length = bm.length) :
    (hybridScores sem bm sw bw).length = sem.length := by
  unfold hybridScores
  rw [List.length_zipWith, length_normalizeByMax, length_normalizeByMax, h, min_self]

theorem retrieve_eq_map (chunks : List SopChunk) (sem bm : List ℚ) (k : ℕ)
    (sw bw : ℚ) :
    retrieve_relevant_sops chunks sem bm k sw bw =
      ((pyArgsort (hybridScores sem bm sw bw)).reverse.take k).map
        (mkCandidate chunks (normalizeByMax sem) (normalizeByMax bm)
          (hybridScores sem bm sw bw)) := rfl

/-- Every returned candidate is the dict built from some valid row index. -/
theorem mem_retrieve {chunks : List SopChunk} {sem bm : List ℚ} {k : ℕ}
    {sw bw : ℚ} {c : Candidate}
    (hc : c ∈ retrieve_relevant_sops chunks sem bm k sw bw) :
    ∃ i, i < (hybridScores sem bm sw bw).length ∧
      c = mkCandidate chunks (normalizeByMax sem) (normalizeByMax bm)
            (hybridScores sem bm sw bw) i := by
  rw [retrieve_eq_map] at hc
  rcases List.mem_map.mp hc with ⟨i, hi, rfl⟩
  have h1 : i ∈ (pyArgsort (hybridScores sem bm sw bw)).reverse :=
    List.mem_of_mem_take hi
  rw [List.mem_reverse] at h1
  exact ⟨i, mem_pyArgsort.mp h1, rfl⟩

end SOPFinder

namespace SOPFinder

/-- C1 (amended): for equal-length score vectors, a non-empty catalog and
`top_k ≥ 1`, `retrieve_relevant_sops` returns exactly
`min top_k catalogSize` candidates ordered by non-increasing fused score;
ties between equal fused scores come out in DESCENDING row order, because
`np.argsort(hybrid_scores)[::-1]` reverses a stable ascending argsort —
not ascending row order as the spec states. -/
theorem retrieve_count_and_ordering
    (chunks : List SopChunk) (semantic_scores bm25_scores : List ℚ)
    (top_k : ℕ) (semantic_weight bm25_weight : ℚ)
    (hs : semantic_scores.length = chunks.length)
    (hb : bm25_scores.length = chunks.length)
    (hne : chunks ≠ []) (hk : 1 ≤ top_k) :
    (retrieve_relevant_sops chunks semantic_scores bm25_scores top_k
        semantic_weight bm25_weight).length = min top_k chunks.length ∧
    List.Pairwise (fun a b =>
        (hybridScores semantic_scores bm25_scores semantic_weight bm25_weight).getD b.row 0 <
          (hybridScores semantic_scores bm25_scores semantic_weight bm25_weight).getD a.row 0 ∨
        ((hybridScores semantic_scores bm25_scores semantic_weight bm25_weight).getD a.row 0 =
            (hybridScores semantic_scores bm25_scores semantic_weight bm25_weight).getD b.row 0 ∧
          b.row < a.row))
      (retrieve_relevant_sops chunks semantic_scores bm25_scores top_k
        semantic_weight bm25_weight) := by
  have hlen : (hybridScores semantic_scores bm25_scores semantic_weight
      bm25_weight).length = chunks.length := by
    rw [length_hybridScores _ _ _ _ (hs.trans hb.symm), hs]
  constructor
  · rw [retrieve_eq_map, List.length_map, List.length_take, List.length_reverse,
      pyArgsort_length, hlen]
  · rw [retrieve_eq_map]
    refine List.pairwise_map.mpr ?_
    have hp := List.Pairwise.sublist (List.take_sublist top_k _)
      (pyArgsort_reverse_pairwise
        (hybridScores semantic_scores bm25_scores semantic_weight bm25_weight))
    exact hp

/-- C1 counterexample: with two catalog rows and all-zero score vectors the
fused scores tie at `0`, and the rows come back as `[1, 0]` — descending,
refuting the claimed ascending tie-break. -/
theorem retrieve_tie_order_cx :
    (retrieve_relevant_sops twoChunks [0, 0] [0, 0] 2 (6 / 10) (4 / 10)).map
        Candidate.row = [1, 0] ∧
    ¬ List.Pairwise (fun a b =>
        (hybridScores [0, 0] [0, 0] (6 / 10) (4 / 10)).getD b.row 0 <
          (hybridScores [0, 0] [0, 0] (6 / 10) (4 / 10)).getD a.row 0 ∨
        ((hybridScores [0, 0] [0, 0] (6 / 10) (4 / 10)).getD a.row 0 =
            (hybridScores [0, 0] [0, 0] (6 / 10) (4 / 10)).getD b.row 0 ∧
          a.row < b.row))
      (retrieve_relevant_sops twoChunks [0, 0] [0, 0] 2 (6 / 10) (4 / 10)) := by
  constructor
  · with_unfolding_all decide
  · with_unfolding_all decide

/-- C2 counterexample: the record `SOP-A: bad` has a malformed header (the
number part is not an integer), and instead of being skipped it makes the
whole parse raise `ValueError`, losing the well-formed record after it. -/
theorem parse_sops_abort_cx :
    parse_sops "SOP-A: bad---SOP-2: Good" =
      Except.error "ValueError: invalid literal for int()" := by rfl

/-- C2 (amended): a section that fails the `startswith('SOP-')` guard or has
no colon in its first line is silently skipped and contributes nothing, but
a section whose header reaches `int()` with a non-integer number part makes
the whole parse abort with `ValueError` (records before it notwithstanding). -/
theorem parse_skip_and_abort :
    (∀ pre post s, parseSection s = Except.ok none →
      parseSections (pre ++ s :: post) = parseSections (pre ++ post)) ∧
    (∀ pre post s e, (∀ p ∈ pre, ∃ o, parseSection p = Except.ok o) →
      parseSection s = Except.error e →
      parseSections (pre ++ s :: post) = Except.error e) := by
  constructor
  · intro pre post s hskip
    induction pre with
    | nil => simp [parseSections, hskip]
    | cons p pre ih =>
      simp only [List.cons_append, parseSections]
      cases hp : parseSection p with
      | error e => rfl
      | ok o =>
        cases o with
        | none => exact ih
        | some c => exact congrArg (Except.map fun cs => c :: cs) ih
  · intro pre post s e hpre herr
    induction pre with
    | nil => simp [parseSections, herr]
    | cons p pre ih =>
      simp only [List.cons_append, parseSections]
      rcases hpre p (List.mem_cons_self p pre) with ⟨o, hp⟩
      rw [hp]
      have ih2 := ih (fun q hq => hpre q (List.mem_cons_of_mem p hq))
      cases o with
      | none => exact ih2
      | some c =>
        exact (congrArg (Except.map fun cs => c :: cs) ih2).trans rfl

/-- Witness for `parse_skip_and_abort`: a headerless section in front of a
good record is skipped without affecting the good record. -/
theorem parse_skip_and_abort_witness :
    parseSections ["no header".data, "SOP-3: ok".data] =
      parseSections ["SOP-3: ok".data] :=
  parse_skip_and_abort.1 [] ["SOP-3: ok".data] "no header".data (by rfl)

end SOPFinder

namespace SOPFinder

/-- Record splitter following the wording of the spec boundary grammar:
records are separated by a LINE that is exactly the delimiter token `---`
(compare with `splitDashes`, which splits at any occurrence of the
substring). -/
def splitAtDelimLine : List (List Char) → List (List Char) → List (List (List Char))
  | [], acc => [acc.reverse]
  | l :: rest, acc =>
    if l = ['-', '-', '-'] then acc.reverse :: splitAtDelimLine rest []
    else splitAtDelimLine rest (l :: acc)

/-- Digit run to a number. -/
def digitsToNat (l : List Char) : Nat :=
  l.foldl (fun acc c => 10 * acc + (c.toNat - 48)) 0

/-- Header matcher following the spec wording `SOP-<integer>: <title>`. -/
def specHeader (line : List Char) : Option (Int × List Char) :=
  match line with
  | 'S' :: 'O' :: 'P' :: '-' :: rest =>
    match rest.dropWhile Char.isDigit with
    | ':' :: titlePart =>
      if rest.takeWhile Char.isDigit = [] then none
      else some ((digitsToNat (rest.takeWhile Char.isDigit) : Int), pyStrip titlePart)
    | _ => none
  | _ => none

/-- Parser following the claim wording of the boundary grammar, used only to
compare against `parse_sops`: split at delimiter LINES, accept a record when
the first line of its trimmed text matches `SOP-<integer>: <title>`, store
the whole record text verbatim as `content`. -/
def parse_spec (text : String) : List SopChunk :=
  (splitAtDelimLine (splitNewline text.data []) []).filterMap (fun recLines =>
    let recText := List.intercalate ['\n'] recLines
    match specHeader ((splitNewline (pyStrip recText) []).headD []) with
    | some (n, title) =>
      some { id := "sop_" ++ toString n
           , title := "SOP-" ++ toString n ++ ": " ++ String.mk title
           , content := String.mk recText
           , sop_number := n }
    | none => none)

/-- C3 counterexample: the input `SOP-1: A---extra` contains no line equal to
the delimiter token, yet `parse_sops` splits it mid-line at the substring
`---`, producing a record with content `SOP-1: A` where the claimed
line-based grammar (`parse_spec`) keeps one record `SOP-1: A---extra`. -/
theorem parse_split_cx :
    (parse_sops "SOP-1: A---extra").toOption.map (List.map SopChunk.content) ≠
      some ((parse_spec "SOP-1: A---extra").map SopChunk.content) ∧
    (parse_sops "SOP-1: A---extra").toOption.map (List.map SopChunk.content) =
      some ["SOP-1: A"] ∧
    (parse_spec "SOP-1: A---extra").map SopChunk.content = ["SOP-1: A---extra"] := by
  refine ⟨?_, by rfl, by rfl⟩
  with_unfolding_all decide

theorem parseSections_mem {secs : List (List Char)} {cs : List SopChunk}
    (h : parseSections secs = Except.ok cs) :
    ∀ c ∈ cs, ∃ sec ∈ secs, parseSection sec = Except.ok (some c) := by
  induction secs generalizing cs with
  | nil =>
    simp only [parseSections] at h
    cases h
    intro c hc
    cases hc
  | cons s rest ih =>
    simp only [parseSections] at h
    cases hp : parseSection s with
    | error e => rw [hp] at h; cases h
    | ok o =>
      rw [hp] at h
      cases o with
      | none =>
        intro c hc
        rcases ih h c hc with ⟨sec, hsec, hparse⟩
        exact ⟨sec, List.mem_cons_of_mem s hsec, hparse⟩
      | some c0 =>
        cases hrest : parseSections rest with
        | error e => rw [hrest] at h; cases h
        | ok cs0 =>
          rw [hrest] at h
          cases h
          intro c hc
          rcases List.mem_cons.mp hc with rfl | hc
          · exact ⟨s, List.mem_cons_self s rest, hp⟩
          · rcases ih hrest c hc with ⟨sec, hsec, hparse⟩
            exact ⟨sec, List.mem_cons_of_mem s hsec, hparse⟩

theorem parseSection_accepted {sec : List Char} {c : SopChunk}
    (h : parseSection sec = Except.ok (some c)) :
    c.content = String.mk (pyStrip sec) ∧
    (pyStrip sec).take 4 = ['S', 'O', 'P', '-'] := by
  simp only [parseSection] at h
  split_ifs at h with h1 h2
  · cases hint : pyInt (removeSOPtag
      ((pyStrip ((splitNewline (pyStrip sec) []).headD [])).takeWhile (fun c => c ≠ ':'))) with
    | none => rw [hint] at h; cases h
    | some n =>
      rw [hint] at h
      cases h
      exact ⟨rfl, h1.2⟩
  · cases h
  · cases h

/-- C3 (amended): every record accepted by `parse_sops` comes from one of the
substring-`---` sections, its trimmed text starts with `SOP-`, and the
TRIMMED record text (header line included) is stored as `content`. -/
theorem parse_sops_content (text : String) (cs : List SopChunk)
    (h : parse_sops text = Except.ok cs) :
    ∀ c ∈ cs, ∃ sec ∈ splitDashes text.data [],
      parseSection sec = Except.ok (some c) ∧
      c.content = String.mk (pyStrip sec) ∧
      (pyStrip sec).take 4 = ['S', 'O', 'P', '-'] := by
  intro c hc
  rcases parseSections_mem h c hc with ⟨sec, hsec, hparse⟩
  rcases parseSection_accepted hparse with ⟨h1, h2⟩
  exact ⟨sec, hsec, hparse, h1, h2⟩

/-- Witness for `parse_sops_content` on a one-record input. -/
theorem parse_sops_content_witness :
    ∃ sec ∈ splitDashes ("SOP-7: Title").data [],
      parseSection sec = Except.ok (some ⟨"sop_7", "SOP-7: Title", "SOP-7: Title", 7⟩) ∧
      (SopChunk.content ⟨"sop_7", "SOP-7: Title", "SOP-7: Title", 7⟩) = String.mk (pyStrip sec) ∧
      (pyStrip sec).take 4 = ['S', 'O', 'P', '-'] :=
  parse_sops_content "SOP-7: Title" [⟨"sop_7", "SOP-7: Title", "SOP-7: Title", 7⟩]
    (by rfl) _ (List.mem_singleton.mpr rfl)

end SOPFinder

namespace SOPFinder

/-- C4 counterexample: the embedding provider can return negative cosine
similarities.  With FAISS hits `[(0, -1), (1, 0)]` the dense raw semantic
vector is `[-1, 0]`, its maximum is exactly `0.0`, and the vector is left
UNCHANGED — it still contains `-1`, so it is not "left all-zeros", and the
returned candidate for row 0 carries the negative normalised score. -/
theorem normalize_zero_max_cx :
    npMax (denseSemanticScores 2 [(0, -1), (1, 0)]) = 0 ∧
    normalizeByMax (denseSemanticScores 2 [(0, -1), (1, 0)]) = [-1, 0] ∧
    ¬ (∀ c ∈ retrieve_relevant_sops twoChunks
          (denseSemanticScores 2 [(0, -1), (1, 0)]) [0, 0] 2 (6 / 10) (4 / 10),
        c.semantic_score = 0) := by
  refine ⟨by with_unfolding_all decide, by with_unfolding_all decide, ?_⟩
  with_unfolding_all decide

/-- C4 (amended): each raw vector with a positive maximum is divided
entrywise by that maximum and the maximum of the normalised vector is then
exactly `1`; a vector whose maximum is not positive is left UNCHANGED, which
is all-zeros exactly when the raw vector is non-negative (always true for
BM25 scores, not guaranteed for cosine similarities). -/
theorem normalizeByMax_cases (v : List ℚ) (hne : v ≠ []) :
    (0 < npMax v →
      normalizeByMax v = v.map (fun x => x / npMax v) ∧
      npMax (normalizeByMax v) = 1) ∧
    (¬ 0 < npMax v → normalizeByMax v = v) ∧
    (npMax v = 0 → (∀ x ∈ v, 0 ≤ x) → ∀ x ∈ v, x = 0) := by
  refine ⟨fun h => ⟨normalizeByMax_pos h, npMax_normalizeByMax hne h⟩,
    fun h => normalizeByMax_nonpos h, fun h0 hnn x hx => ?_⟩
  have h1 := le_npMax x hx
  have h2 := hnn x hx
  rw [h0] at h1
  exact le_antisymm h1 h2

/-- Witness for `normalizeByMax_cases` on the vector `[1/2, 1]`. -/
theorem normalizeByMax_cases_witness :
    normalizeByMax [1/2, 1] = [1/2, 1].map (fun x => x / npMax [1/2, 1]) ∧
    npMax (normalizeByMax [1/2, 1]) = 1 :=
  (normalizeByMax_cases [1/2, 1] (by with_unfolding_all decide)).1
    (by with_unfolding_all decide)

/-- C5 counterexample: with raw scores `[1, 3/50000]` / `[0, 0]` the second
candidate has fused score `9/250000 = 0.000036`, which rounds to `0.0`,
while its normalised semantic score `0.00006` rounds to `0.0001`; the
returned `confidence_score` is `0`, but recomputing from the returned fields
gives `0.6 * 0.0001 + 0.4 * 0 = 0.00006 ≠ 0`. -/
theorem fused_recompute_cx :
    ¬ (∀ c ∈ retrieve_relevant_sops twoChunks [1, 3/50000] [0, 0] 2 (6 / 10) (4 / 10),
        c.confidence_score = 6 / 10 * c.semantic_score + 4 / 10 * c.bm25_score) := by
  with_unfolding_all decide

/-- C5 (amended): the UNROUNDED fused score of every returned row is exactly
`semantic_weight * norm_semantic + bm25_weight * norm_lexical`, and the
returned `confidence_score`, `semantic_score` and `bm25_score` fields are
the `round(x, 4)` images of the fused and normalised values, so the exact
recomputation holds for the unrounded values, not the returned fields. -/
theorem fused_linearity_rounded
    (chunks : List SopChunk) (semantic_scores bm25_scores : List ℚ)
    (top_k : ℕ) (semantic_weight bm25_weight : ℚ)
    (hlens : semantic_scores.length = bm25_scores.length) :
    ∀ c ∈ retrieve_relevant_sops chunks semantic_scores bm25_scores top_k
        semantic_weight bm25_weight,
      (hybridScores semantic_scores bm25_scores semantic_weight bm25_weight).getD c.row 0 =
        semantic_weight * (normalizeByMax semantic_scores).getD c.row 0 +
          bm25_weight * (normalizeByMax bm25_scores).getD c.row 0 ∧
      c.confidence_score = round4
        ((hybridScores semantic_scores bm25_scores semantic_weight bm25_weight).getD c.row 0) ∧
      c.semantic_score = round4 ((normalizeByMax semantic_scores).getD c.row 0) ∧
      c.bm25_score = round4 ((normalizeByMax bm25_scores).getD c.row 0) := by
  intro c hc
  rcases mem_retrieve hc with ⟨i, hi, rfl⟩
  refine ⟨?_, rfl, rfl, rfl⟩
  have hlen := length_hybridScores semantic_scores bm25_scores
    semantic_weight bm25_weight hlens
  have hi1 : i < semantic_scores.length := by rw [← hlen]; exact hi
  have hi2 : i < bm25_scores.length := by rw [← hlens]; exact hi1
  show (hybridScores semantic_scores bm25_scores semantic_weight bm25_weight).getD i 0 =
      semantic_weight * (normalizeByMax semantic_scores).getD i 0 +
        bm25_weight * (normalizeByMax bm25_scores).getD i 0
  rw [List.getD_eq_getElem _ _ hi,
    List.getD_eq_getElem _ _ (by rw [length_normalizeByMax]; exact hi1),
    List.getD_eq_getElem _ _ (by rw [length_normalizeByMax]; exact hi2)]
  simp only [hybridScores, List.getElem_zipWith]

/-- Witness for `fused_linearity_rounded` at the first returned candidate of
a concrete query. -/
theorem fused_linearity_rounded_witness :
    (hybridScores [1, 0] [1, 0] (6 / 10) (4 / 10)).getD
        ((retrieve_relevant_sops twoChunks [1, 0] [1, 0] 2 (6 / 10) (4 / 10)).headD default).row 0 =
      6 / 10 * (normalizeByMax [1, 0]).getD
        ((retrieve_relevant_sops twoChunks [1, 0] [1, 0] 2 (6 / 10) (4 / 10)).headD default).row 0 +
        4 / 10 * (normalizeByMax [1, 0]).getD
        ((retrieve_relevant_sops twoChunks [1, 0] [1, 0] 2 (6 / 10) (4 / 10)).headD default).row 0 ∧
    ((retrieve_relevant_sops twoChunks [1, 0] [1, 0] 2 (6 / 10) (4 / 10)).headD default).confidence_score =
      round4 ((hybridScores [1, 0] [1, 0] (6 / 10) (4 / 10)).getD
        ((retrieve_relevant_sops twoChunks [1, 0] [1, 0] 2 (6 / 10) (4 / 10)).headD default).row 0) ∧
    ((retrieve_relevant_sops twoChunks [1, 0] [1, 0] 2 (6 / 10) (4 / 10)).headD default).semantic_score =
      round4 ((normalizeByMax [1, 0]).getD
        ((retrieve_relevant_sops twoChunks [1, 0] [1, 0] 2 (6 / 10) (4 / 10)).headD default).row 0) ∧
    ((retrieve_relevant_sops twoChunks [1, 0] [1, 0] 2 (6 / 10) (4 / 10)).headD default).bm25_score =
      round4 ((normalizeByMax [1, 0]).getD
        ((retrieve_relevant_sops twoChunks [1, 0] [1, 0] 2 (6 / 10) (4 / 10)).headD default).row 0) :=
  fused_linearity_rounded twoChunks [1, 0] [1, 0] 2 (6 / 10) (4 / 10) (by rfl) _
    (by with_unfolding_all decide)

/-- C6: every returned candidate's `confidence_level` is computed from its
own UNROUNDED fused score via the fixed breakpoints `0.70` and `0.40`
(HIGH / MEDIUM / LOW), and an empty retrieval yields level NONE with
recommendation NO_MATCH. -/
theorem tier_from_fused
    (chunks : List SopChunk) (semantic_scores bm25_scores : List ℚ)
    (top_k : ℕ) (semantic_weight bm25_weight : ℚ) :
    (∀ c ∈ retrieve_relevant_sops chunks semantic_scores bm25_scores top_k
        semantic_weight bm25_weight,
      c.confidence_level =
        if (hybridScores semantic_scores bm25_scores semantic_weight
              bm25_weight).getD c.row 0 ≥ 7 / 10 then "HIGH"
        else if (hybridScores semantic_scores bm25_scores semantic_weight
              bm25_weight).getD c.row 0 ≥ 4 / 10 then "MEDIUM"
        else "LOW") ∧
    (∀ t : ℚ, (selectFromCandidates [] t).confidence_level = "NONE" ∧
      (selectFromCandidates [] t).recommendation = "NO_MATCH") := by
  refine ⟨?_, fun t => ⟨rfl, rfl⟩⟩
  intro c hc
  rcases mem_retrieve hc with ⟨i, hi, rfl⟩
  rfl

/-- Witness for `tier_from_fused` at a concrete query whose top candidate is
HIGH, plus the NONE case. -/
theorem tier_from_fused_witness :
    ((retrieve_relevant_sops twoChunks [1, 0] [1, 0] 2 (6 / 10) (4 / 10)).headD default).confidence_level =
      (if (hybridScores [1, 0] [1, 0] (6 / 10) (4 / 10)).getD
            ((retrieve_relevant_sops twoChunks [1, 0] [1, 0] 2 (6 / 10) (4 / 10)).headD default).row 0 ≥ 7 / 10
       then "HIGH"
       else if (hybridScores [1, 0] [1, 0] (6 / 10) (4 / 10)).getD
            ((retrieve_relevant_sops twoChunks [1, 0] [1, 0] 2 (6 / 10) (4 / 10)).headD default).row 0 ≥ 4 / 10
       then "MEDIUM" else "LOW") ∧
    (selectFromCandidates [] (4 / 10)).confidence_level = "NONE" :=
  ⟨(tier_from_fused twoChunks [1, 0] [1, 0] 2 (6 / 10) (4 / 10)).1 _
      (by with_unfolding_all decide),
   ((tier_from_fused twoChunks [1, 0] [1, 0] 2 (6 / 10) (4 / 10)).2 (4 / 10)).1⟩

end SOPFinder

namespace SOPFinder

/-- C7 counterexample: with raw scores `[1, 0]` and `[2499/10000, 1]` the
top fused score is `0.69996`, inside `[threshold, 0.7)`, so the claim
demands REVIEW; but `select_best_sop` compares the 4-decimal rounding
`0.7000` of that score and answers ACCEPT. -/
theorem recommendation_rounding_cx :
    (select_best_sop twoChunks [1, 0] [2499/10000, 1] (4 / 10)).selected_sop_id =
      some "sop_1" ∧
    4 / 10 ≤ (hybridScores [1, 0] [2499/10000, 1] (6 / 10) (4 / 10)).getD 0 0 ∧
    (hybridScores [1, 0] [2499/10000, 1] (6 / 10) (4 / 10)).getD 0 0 < 7 / 10 ∧
    (select_best_sop twoChunks [1, 0] [2499/10000, 1] (4 / 10)).recommendation =
      "ACCEPT" := by
  refine ⟨by with_unfolding_all decide, by with_unfolding_all decide,
    by with_unfolding_all decide, by with_unfolding_all decide⟩

/-- C7 (amended): `select_best_sop` retrieves with `top_k = 3` and default
weights, then decides from the ROUNDED (4-decimal) confidence score `s` of
the best candidate: `s ≥ 0.7 → ACCEPT`, else `s ≥ threshold → REVIEW`, else
REJECT; with no candidates it answers NO_MATCH with no selected record and
confidence `0.0`. -/
theorem select_best_sop_cases :
    (∀ chunks semantic_scores bm25_scores t,
      select_best_sop chunks semantic_scores bm25_scores t =
        selectFromCandidates (retrieve_relevant_sops chunks semantic_scores
          bm25_scores 3 (6 / 10) (4 / 10)) t) ∧
    (∀ (best : Candidate) (rest : List Candidate) (t : ℚ),
      (7 / 10 ≤ best.confidence_score →
        (selectFromCandidates (best :: rest) t).recommendation = "ACCEPT") ∧
      (¬ 7 / 10 ≤ best.confidence_score → t ≤ best.confidence_score →
        (selectFromCandidates (best :: rest) t).recommendation = "REVIEW") ∧
      (¬ 7 / 10 ≤ best.confidence_score → ¬ t ≤ best.confidence_score →
        (selectFromCandidates (best :: rest) t).recommendation = "REJECT") ∧
      (selectFromCandidates (best :: rest) t).confidence_score =
        best.confidence_score) ∧
    (∀ t : ℚ, (selectFromCandidates [] t).recommendation = "NO_MATCH" ∧
      (selectFromCandidates [] t).selected_sop_id = none ∧
      (selectFromCandidates [] t).confidence_score = 0) := by
  refine ⟨fun _ _ _ _ => rfl, fun best rest t => ⟨?_, ?_, ?_, rfl⟩,
    fun t => ⟨rfl, rfl, rfl⟩⟩
  · intro h
    show recommendationOf best.confidence_score t = "ACCEPT"
    unfold recommendationOf
    rw [if_pos h]
  · intro h1 h2
    show recommendationOf best.confidence_score t = "REVIEW"
    unfold recommendationOf
    rw [if_neg h1, if_pos h2]
  · intro h1 h2
    show recommendationOf best.confidence_score t = "REJECT"
    unfold recommendationOf
    rw [if_neg h1, if_neg h2]

/-- Witness for `select_best_sop_cases`: a concrete ACCEPT case. -/
theorem select_best_sop_cases_witness :
    (selectFromCandidates
        (((retrieve_relevant_sops twoChunks [1, 0] [1, 0] 3 (6 / 10) (4 / 10)).headD default) :: [])
        (4 / 10)).recommendation = "ACCEPT" :=
  (select_best_sop_cases.2.1
      ((retrieve_relevant_sops twoChunks [1, 0] [1, 0] 3 (6 / 10) (4 / 10)).headD default)
      [] (4 / 10)).1 (by with_unfolding_all decide)

/-- Rank of a recommendation string, used to state that raising the
threshold never upgrades the outcome. -/
def recRank (r : String) : ℕ :=
  if r = "ACCEPT" then 2 else if r = "REVIEW" then 1 else 0

/-- C8: for a fixed compared score `s`, raising the threshold from `t1` to
`t2` never upgrades the recommendation: the rank never rises, ACCEPT stays
ACCEPT, REJECT stays REJECT, and a REVIEW that becomes REJECT does so only
because the higher threshold exceeds `s`. -/
theorem recommendation_monotone (s t1 t2 : ℚ) (h : t1 ≤ t2) :
    recRank (recommendationOf s t2) ≤ recRank (recommendationOf s t1) ∧
    (recommendationOf s t1 = "ACCEPT" → recommendationOf s t2 = "ACCEPT") ∧
    (recommendationOf s t1 = "REJECT" → recommendationOf s t2 = "REJECT") ∧
    (recommendationOf s t1 = "REVIEW" → recommendationOf s t2 = "REJECT" → s < t2) := by
  unfold recommendationOf recRank
  split_ifs with h1 h2 h3 h4 h5 h6 h7 h8 <;> simp_all <;> linarith

/-- Witness for `recommendation_monotone` at `s = 1/2`, `t1 = 2/5`,
`t2 = 3/5`. -/
theorem recommendation_monotone_witness :
    recRank (recommendationOf (1/2) (3/5)) ≤ recRank (recommendationOf (1/2) (2/5)) ∧
    (recommendationOf (1/2) (2/5) = "ACCEPT" → recommendationOf (1/2) (3/5) = "ACCEPT") ∧
    (recommendationOf (1/2) (2/5) = "REJECT" → recommendationOf (1/2) (3/5) = "REJECT") ∧
    (recommendationOf (1/2) (2/5) = "REVIEW" → recommendationOf (1/2) (3/5) = "REJECT" →
      (1 : ℚ)/2 < 3/5) :=
  recommendation_monotone (1/2) (2/5) (3/5) (by norm_num)

end SOPFinder

namespace SOPFinder

/-- C9 counterexample: a provider returning a negative cosine similarity
(`-1` at row 1, via the dense FAISS fill) makes the returned candidate for
row 1 carry `semantic_score = -1` and `confidence_score = -0.6`, outside
`[0, 1]`, under the default weights. -/
theorem scores_negative_cx :
    ((retrieve_relevant_sops twoChunks (denseSemanticScores 2 [(0, 1), (1, -1)])
        [0, 0] 2 (6 / 10) (4 / 10)).getD 1 default).semantic_score = -1 ∧
    ((retrieve_relevant_sops twoChunks (denseSemanticScores 2 [(0, 1), (1, -1)])
        [0, 0] 2 (6 / 10) (4 / 10)).getD 1 default).confidence_score = -(3/5) ∧
    ¬ (∀ c ∈ retrieve_relevant_sops twoChunks (denseSemanticScores 2 [(0, 1), (1, -1)])
          [0, 0] 2 (6 / 10) (4 / 10),
        0 ≤ c.semantic_score ∧ 0 ≤ c.confidence_score) := by
  refine ⟨by with_unfolding_all decide, by with_unfolding_all decide, ?_⟩
  with_unfolding_all decide

/-- C9 (amended): under the default weights 0.6/0.4, whenever both raw score
vectors are non-negative (BM25 raw scores are; cosine similarities need not
be), every returned candidate's `semantic_score`, `bm25_score` and
`confidence_score` lie in `[0, 1]`. -/
theorem scores_in_unit_interval
    (chunks : List SopChunk) (semantic_scores bm25_scores : List ℚ) (top_k : ℕ)
    (hlens : semantic_scores.length = bm25_scores.length)
    (hsem : ∀ x ∈ semantic_scores, 0 ≤ x) (hbm : ∀ x ∈ bm25_scores, 0 ≤ x) :
    ∀ c ∈ retrieve_relevant_sops chunks semantic_scores bm25_scores top_k
        (6 / 10) (4 / 10),
      (0 ≤ c.semantic_score ∧ c.semantic_score ≤ 1) ∧
      (0 ≤ c.bm25_score ∧ c.bm25_score ≤ 1) ∧
      (0 ≤ c.confidence_score ∧ c.confidence_score ≤ 1) := by
  intro c hc
  rcases mem_retrieve hc with ⟨i, hi, rfl⟩
  have hlen := length_hybridScores semantic_scores bm25_scores (6/10) (4/10) hlens
  have hi1 : i < semantic_scores.length := by rw [← hlen]; exact hi
  have hi2 : i < bm25_scores.length := by rw [← hlens]; exact hi1
  have hi1' : i < (normalizeByMax semantic_scores).length := by
    rw [length_normalizeByMax]; exact hi1
  have hi2' : i < (normalizeByMax bm25_scores).length := by
    rw [length_normalizeByMax]; exact hi2
  have ha : 0 ≤ (normalizeByMax semantic_scores).getD i 0 ∧
      (normalizeByMax semantic_scores).getD i 0 ≤ 1 := by
    rw [List.getD_eq_getElem _ _ hi1']
    exact normalizeByMax_mem_unit hsem _ (List.getElem_mem hi1')
  have hb2 : 0 ≤ (normalizeByMax bm25_scores).getD i 0 ∧
      (normalizeByMax bm25_scores).getD i 0 ≤ 1 := by
    rw [List.getD_eq_getElem _ _ hi2']
    exact normalizeByMax_mem_unit hbm _ (List.getElem_mem hi2')
  have hlin : (hybridScores semantic_scores bm25_scores (6/10) (4/10)).getD i 0 =
      6/10 * (normalizeByMax semantic_scores).getD i 0 +
        4/10 * (normalizeByMax bm25_scores).getD i 0 := by
    rw [List.getD_eq_getElem _ _ hi, List.getD_eq_getElem _ _ hi1',
      List.getD_eq_getElem _ _ hi2']
    simp only [hybridScores, List.getElem_zipWith]
  have hc0 : 0 ≤ (hybridScores semantic_scores bm25_scores (6/10) (4/10)).getD i 0 := by
    rw [hlin]; linarith [ha.1, hb2.1]
  have hc1 : (hybridScores semantic_scores bm25_scores (6/10) (4/10)).getD i 0 ≤ 1 := by
    rw [hlin]; linarith [ha.2, hb2.2]
  exact ⟨⟨round4_nonneg ha.1, round4_le_one ha.2⟩,
    ⟨round4_nonneg hb2.1, round4_le_one hb2.2⟩,
    ⟨round4_nonneg hc0, round4_le_one hc1⟩⟩

/-- Witness for `scores_in_unit_interval` at the first candidate of a
concrete non-negative query. -/
theorem scores_in_unit_interval_witness :
    (0 ≤ ((retrieve_relevant_sops twoChunks [1, 1/2] [1/2, 1] 2 (6 / 10) (4 / 10)).headD default).semantic_score ∧
      ((retrieve_relevant_sops twoChunks [1, 1/2] [1/2, 1] 2 (6 / 10) (4 / 10)).headD default).semantic_score ≤ 1) ∧
    (0 ≤ ((retrieve_relevant_sops twoChunks [1, 1/2] [1/2, 1] 2 (6 / 10) (4 / 10)).headD default).bm25_score ∧
      ((retrieve_relevant_sops twoChunks [1, 1/2] [1/2, 1] 2 (6 / 10) (4 / 10)).headD default).bm25_score ≤ 1) ∧
    (0 ≤ ((retrieve_relevant_sops twoChunks [1, 1/2] [1/2, 1] 2 (6 / 10) (4 / 10)).headD default).confidence_score ∧
      ((retrieve_relevant_sops twoChunks [1, 1/2] [1/2, 1] 2 (6 / 10) (4 / 10)).headD default).confidence_score ≤ 1) :=
  scores_in_unit_interval twoChunks [1, 1/2] [1/2, 1] 2 (by rfl)
    (by with_unfolding_all decide) (by with_unfolding_all decide) _
    (by with_unfolding_all decide)

/-- C10: the returned `confidence_score`, `semantic_score` and `bm25_score`
are the 4-decimal roundings of the fused / normalised values; the
recommendation is decided on the ROUNDED confidence score of the best
candidate; and at the concrete top fused score `0.69996` (within `0.00005`
of the `0.7` breakpoint) the recommendation is ACCEPT while the tier,
computed from the unrounded score, is MEDIUM. -/
theorem rounding_decision_divergence :
    (∀ (chunks : List SopChunk) (semantic_scores bm25_scores : List ℚ)
        (top_k : ℕ) (sw bw : ℚ),
      ∀ c ∈ retrieve_relevant_sops chunks semantic_scores bm25_scores top_k sw bw,
        c.confidence_score =
          round4 ((hybridScores semantic_scores bm25_scores sw bw).getD c.row 0) ∧
        c.semantic_score = round4 ((normalizeByMax semantic_scores).getD c.row 0) ∧
        c.bm25_score = round4 ((normalizeByMax bm25_scores).getD c.row 0)) ∧
    (∀ (best : Candidate) (rest : List Candidate) (t : ℚ),
      (selectFromCandidates (best :: rest) t).recommendation =
        recommendationOf best.confidence_score t) ∧
    ((select_best_sop twoChunks [1, 0] [2499/10000, 1] (4 / 10)).recommendation =
        "ACCEPT" ∧
      (select_best_sop twoChunks [1, 0] [2499/10000, 1] (4 / 10)).confidence_level =
        "MEDIUM" ∧
      7 / 10 - 1 / 20000 ≤ (hybridScores [1, 0] [2499/10000, 1] (6 / 10) (4 / 10)).getD 0 0 ∧
      (hybridScores [1, 0] [2499/10000, 1] (6 / 10) (4 / 10)).getD 0 0 < 7 / 10) := by
  refine ⟨?_, fun best rest t => rfl, ?_⟩
  · intro chunks semantic_scores bm25_scores top_k sw bw c hc
    rcases mem_retrieve hc with ⟨i, hi, rfl⟩
    exact ⟨rfl, rfl, rfl⟩
  · refine ⟨by with_unfolding_all decide, by with_unfolding_all decide, ?_, ?_⟩
    · with_unfolding_all decide
    · with_unfolding_all decide

/-- Witness for `rounding_decision_divergence` at a concrete candidate. -/
theorem rounding_decision_divergence_witness :
    (((retrieve_relevant_sops twoChunks [1, 0] [1, 0] 1 (6 / 10) (4 / 10)).headD default).confidence_score =
      round4 ((hybridScores [1, 0] [1, 0] (6 / 10) (4 / 10)).getD
        ((retrieve_relevant_sops twoChunks [1, 0] [1, 0] 1 (6 / 10) (4 / 10)).headD default).row 0) ∧
    ((retrieve_relevant_sops twoChunks [1, 0] [1, 0] 1 (6 / 10) (4 / 10)).headD default).semantic_score =
      round4 ((normalizeByMax [1, 0]).getD
        ((retrieve_relevant_sops twoChunks [1, 0] [1, 0] 1 (6 / 10) (4 / 10)).headD default).row 0) ∧
    ((retrieve_relevant_sops twoChunks [1, 0] [1, 0] 1 (6 / 10) (4 / 10)).headD default).bm25_score =
      round4 ((normalizeByMax [1, 0]).getD
        ((retrieve_relevant_sops twoChunks [1, 0] [1, 0] 1 (6 / 10) (4 / 10)).headD default).row 0)) ∧
    (selectFromCandidates
        (((retrieve_relevant_sops twoChunks [1, 0] [1, 0] 1 (6 / 10) (4 / 10)).headD default) :: [])
        (4 / 10)).recommendation =
      recommendationOf
        ((retrieve_relevant_sops twoChunks [1, 0] [1, 0] 1 (6 / 10) (4 / 10)).headD default).confidence_score
        (4 / 10) :=
  ⟨rounding_decision_divergence.1 twoChunks [1, 0] [1, 0] 1 (6 / 10) (4 / 10) _
      (by with_unfolding_all decide),
   rounding_decision_divergence.2.1
      ((retrieve_relevant_sops twoChunks [1, 0] [1, 0] 1 (6 / 10) (4 / 10)).headD default)
      [] (4 / 10)⟩

end SOPFinder

namespace SOPFinder

/-- Witness for `retrieve_count_and_ordering` on a concrete two-row query. -/
theorem retrieve_count_and_ordering_witness :
    (retrieve_relevant_sops twoChunks [1, 0] [0, 1] 2 (6 / 10) (4 / 10)).length =
      min 2 twoChunks.length ∧
    List.Pairwise (fun a b =>
        (hybridScores [1, 0] [0, 1] (6 / 10) (4 / 10)).getD b.row 0 <
          (hybridScores [1, 0] [0, 1] (6 / 10) (4 / 10)).getD a.row 0 ∨
        ((hybridScores [1, 0] [0, 1] (6 / 10) (4 / 10)).getD a.row 0 =
            (hybridScores [1, 0] [0, 1] (6 / 10) (4 / 10)).getD b.row 0 ∧
          b.row < a.row))
      (retrieve_relevant_sops twoChunks [1, 0] [0, 1] 2 (6 / 10) (4 / 10)) :=
  retrieve_count_and_ordering twoChunks [1, 0] [0, 1] 2 (6 / 10) (4 / 10)
    (by rfl) (by rfl) (by with_unfolding_all decide) (by norm_num)

end SOPFinder
